import Mathlib

/-!
Verification development for the GenCertQuiz repository.

The development shallowly embeds the parts of the repository that the
checked properties speak about:

* the PostgreSQL schema (`migrations/001_init.sql`, `migrations/002_hybrid_search.sql`,
  the topics migration, and `dump.sql`) as row structures together with
  validity predicates expressing exactly the constraints the schema declares;
* the streaming frontend client (`triggerInference`, `convertToExamFormat`
  and the SSE read loop) as pure Lean functions over an explicit client state;
* the backend pipeline pieces whose Python sources are not part of the
  repository snapshot (Agent Pipeline Coordinator, Hybrid Retriever,
  file deletion cascade).  Those are modelled from the specification text
  and are marked as such in their doc comments.
-/

namespace GenCertQuiz

/-! ## Knowledge base schema (migrations/001_init.sql, 002_hybrid_search.sql, dump.sql) -/

/-- A row of the `knowledge_base` table.  Column types follow the schema:
`content` is NOT NULL, `embedding vector(1536)` and `source_type varchar(20)`
are nullable, `metadata` is a JSONB object modelled as a key-value list. -/
structure KnowledgeBaseRow where
  id : Nat
  content : String
  embedding : Option (List Int)
  metadata : List (String × String)
  source_type : Option String
  created_at : Nat
deriving DecidableEq, Repr

/-- The enumeration in the `knowledge_base_source_type_check` constraint after
migration 002: `CHECK (source_type IN (textbook, question, diagram, exam_paper))`. -/
def sourceTypeValues : List String := ["textbook", "question", "diagram", "exam_paper"]

/-- The CHECK constraint on `source_type`.  As in SQL, the check is satisfied
when the column is NULL. -/
def sourceTypeCheck (r : KnowledgeBaseRow) : Bool :=
  match r.source_type with
  | some s => sourceTypeValues.contains s
  | none => true

/-- Dimensionality enforced by the column type `vector(1536)` on non-null
values; a NULL embedding is admitted because the column has no NOT NULL. -/
def embeddingDimCheck (r : KnowledgeBaseRow) : Bool :=
  match r.embedding with
  | some v => v.length == 1536
  | none => true

/-- A `knowledge_base` table state satisfying every constraint the schema
declares: the two column checks above plus the primary key on `id`. -/
def validKnowledgeBase (t : List KnowledgeBaseRow) : Prop :=
  (∀ r ∈ t, sourceTypeCheck r = true ∧ embeddingDimCheck r = true) ∧
  t.Pairwise (fun a b => a.id ≠ b.id)

/-! ## Style profile schema (migrations/002_hybrid_search.sql, dump.sql) -/

/-- A row of the `style_profiles` table.  `source_filename` and `profile` are
NOT NULL (plain fields); the only declared uniqueness is the primary key on
`id` - `style_profiles_source_filename_idx` is a plain btree index, not a
unique one. -/
structure StyleProfileRow where
  id : Nat
  source_filename : String
  topic_keywords : List String
  profile : String
  created_at : Nat
  updated_at : Nat
deriving DecidableEq, Repr

/-- A `style_profiles` table state satisfying every constraint the schema
declares; note the schema declares no unique constraint on `source_filename`. -/
def validStyleProfiles (t : List StyleProfileRow) : Prop :=
  t.Pairwise (fun a b => a.id ≠ b.id)

/-! ## Topics schema (topics migration shipped with the frontend sources) -/

/-- A row of the `topics` table: `name` and `source_filename` NOT NULL,
primary key `id`, and the unique index `topics_name_source_idx` on
`(name, source_filename)`. -/
structure TopicRow where
  id : Nat
  name : String
  source_filename : String
  created_at : Nat
deriving DecidableEq, Repr

/-- A `topics` table state satisfying the declared constraints: primary key
on `id` and the unique index `topics_name_source_idx` on
`(name, source_filename)`. -/
def validTopics (t : List TopicRow) : Prop :=
  t.Pairwise (fun a b => a.id ≠ b.id) ∧
  t.Pairwise (fun a b => ¬(a.name = b.name ∧ a.source_filename = b.source_filename))

/-- Modelled from the spec: every topic-creating operation (ingestion-time
extraction, regenerate-topics) writes through the database, and the unique
index `topics_name_source_idx` together with the primary key makes the
database reject a row that collides with an existing one, leaving the table
unchanged; a non-colliding row is inserted. -/
def insertTopic (t : List TopicRow) (r : TopicRow) : List TopicRow :=
  if t.any (fun x => x.name == r.name && x.source_filename == r.source_filename) ||
      t.any (fun x => x.id == r.id) then
    t
  else
    r :: t

/-! ## Hybrid Retriever (spec section 4.1; backend Python sources absent) -/

/-- Modelled from the spec: the Reciprocal Rank Fusion contribution of one
ranked list.  A chunk at (1-based) rank `i + 1` in the list contributes
`1 / (rank_constant + rank)`; a chunk absent from the list contributes
nothing.  The backend Hybrid Retriever source is not in the snapshot. -/
def rrfContrib (rc : ℚ) (l : List Nat) (c : Nat) : ℚ :=
  match l.findIdx? (fun x => x == c) with
  | some i => 1 / (rc + (i + 1 : Nat))
  | none => 0

/-- Modelled from the spec: the fused score of a chunk is the sum over the
two ranked lists (vector similarity `V`, keyword relevance `K`) of its
reciprocal-rank contributions. -/
def rrfScore (rc : ℚ) (V K : List Nat) (c : Nat) : ℚ :=
  rrfContrib rc V c + rrfContrib rc K c

/-- Ordering of the fused ranking: descending by fused score, ties broken by
more recent creation timestamp. -/
def rrfOrder (rc : ℚ) (createdAt : Nat → Nat) (V K : List Nat) (a b : Nat) : Prop :=
  rrfScore rc V K b < rrfScore rc V K a ∨
    (rrfScore rc V K a = rrfScore rc V K b ∧ createdAt b ≤ createdAt a)

instance (rc : ℚ) (createdAt : Nat → Nat) (V K : List Nat) :
    DecidableRel (rrfOrder rc createdAt V K) := by
  unfold rrfOrder
  infer_instance

theorem rrfOrder_total (rc : ℚ) (createdAt : Nat → Nat) (V K : List Nat) (a b : Nat) :
    rrfOrder rc createdAt V K a b ∨ rrfOrder rc createdAt V K b a := by
  unfold rrfOrder
  rcases lt_trichotomy (rrfScore rc V K a) (rrfScore rc V K b) with h | h | h
  · exact Or.inr (Or.inl h)
  · rcases le_total (createdAt b) (createdAt a) with hc | hc
    · exact Or.inl (Or.inr ⟨h, hc⟩)
    · exact Or.inr (Or.inr ⟨h.symm, hc⟩)
  · exact Or.inl (Or.inl h)

theorem rrfOrder_trans (rc : ℚ) (createdAt : Nat → Nat) (V K : List Nat) (a b c : Nat)
    (hab : rrfOrder rc createdAt V K a b) (hbc : rrfOrder rc createdAt V K b c) :
    rrfOrder rc createdAt V K a c := by
  unfold rrfOrder at *
  rcases hab with h1 | ⟨h1, h1t⟩ <;> rcases hbc with h2 | ⟨h2, h2t⟩
  · exact Or.inl (h2.trans h1)
  · exact Or.inl (lt_of_le_of_lt (le_of_eq h2.symm) h1)
  · exact Or.inl (lt_of_lt_of_le h2 (le_of_eq h1.symm))
  · exact Or.inr ⟨h1.trans h2, h2t.trans h1t⟩

instance (rc : ℚ) (createdAt : Nat → Nat) (V K : List Nat) :
    IsTotal Nat (rrfOrder rc createdAt V K) :=
  ⟨rrfOrder_total rc createdAt V K⟩

instance (rc : ℚ) (createdAt : Nat → Nat) (V K : List Nat) :
    IsTrans Nat (rrfOrder rc createdAt V K) :=
  ⟨rrfOrder_trans rc createdAt V K⟩

/-- Modelled from the spec: the Hybrid Retriever fuses the vector-similarity
ranking `V` and the keyword ranking `K` with Reciprocal Rank Fusion, sorts
the candidate chunks descending by fused score (ties broken by more recent
creation timestamp) and returns the top-`k`. -/
def hybridRetrieve (rc : ℚ) (createdAt : Nat → Nat) (V K : List Nat) (k : Nat) : List Nat :=
  ((V ++ K).dedup.insertionSort (rrfOrder rc createdAt V K)).take k

/-- Creation timestamp of the chunk with a given id in a table state,
defaulting to 0 for an id not present. -/
def createdAtOf (t : List KnowledgeBaseRow) (i : Nat) : Nat :=
  ((t.find? (fun r => r.id == i)).map (fun r => r.created_at)).getD 0

/-- Modelled from the spec: the only access the generation pipeline has to
stored chunks is read-only retrieval (spec section 3: chunks are read-only to
the core and never mutated by the pipeline).  The step returns the fused
ranking together with the unchanged table state. -/
def storeRetrieveStep (t : List KnowledgeBaseRow) (rc : ℚ) (V K : List Nat) (k : Nat) :
    List Nat × List KnowledgeBaseRow :=
  (hybridRetrieve rc (createdAtOf t) V K k, t)

/-! ## Agent Pipeline Coordinator event stream (spec sections 4.3, 4.5; backend sources absent) -/

/-- The four event kinds of the wire contract
`{type: progress | question | done | error}`. -/
inductive EventKind where
  | progress
  | question
  | done
  | error
deriving DecidableEq, Repr

/-- An event is terminal when it is `done` or `error`. -/
def isTerminalEvent : EventKind → Bool
  | .done => true
  | .error => true
  | _ => false

/-- Outcome of one slot of a generation run, as far as the emitted events are
concerned: the slot emits some progress events and then either emits an
accepted question, is abandoned (quality rejection, duplicate exhaustion, no
grounding), or hits a fatal request-level failure. -/
inductive SlotOutcome where
  | emitted (progressCount : Nat)
  | abandoned (progressCount : Nat)
  | fatal (progressCount : Nat)
deriving DecidableEq, Repr

/-- Modelled from the spec: the Coordinator processes slots sequentially and
the Progress Stream Emitter delivers the produced events in order.  Each slot
contributes its progress events and, if accepted, one question event; a slot
with a fatal request-level failure ends the stream with a single terminal
`error` event; when all slots are processed the stream ends with a single
terminal `done` event.  The backend Coordinator source is not in the
snapshot. -/
def runEvents : List SlotOutcome → List EventKind
  | [] => [.done]
  | .emitted p :: rest =>
      List.replicate p .progress ++ .question :: runEvents rest
  | .abandoned p :: rest =>
      List.replicate p .progress ++ runEvents rest
  | .fatal p :: _ =>
      List.replicate p .progress ++ [.error]

/-! ## Coordinator revision bound (spec sections 4.3, 8; backend sources absent) -/

/-- Modelled from the spec: the draft-critique loop for one slot.  `budget`
is the fixed bound on draft attempts (spec: N, e.g. 2); `critique n` tells
whether the n-th draft reaches the acceptance threshold.  The result is the
number of draft attempts issued and whether the slot produced an accepted
question; when the budget is exhausted the slot is abandoned. -/
def runSlot (critique : Nat → Bool) : Nat → Nat → Nat × Bool
  | 0, _ => (0, false)
  | budget + 1, attempt =>
      if critique attempt then
        (1, true)
      else
        let r := runSlot critique budget (attempt + 1)
        (r.1 + 1, r.2)

/-- Modelled from the spec: the Coordinator runs the slots of a request
sequentially; an abandoned slot does not fail the request, the run simply
continues with the next slot, so the request can complete with fewer
questions than requested.  The result is the number of accepted questions. -/
def runRequest (bound : Nat) : List (Nat → Bool) → Nat
  | [] => 0
  | c :: rest =>
      (if (runSlot c bound 0).2 then 1 else 0) + runRequest bound rest

/-! ## File deletion cascade (spec section 3; backend DELETE handler source absent) -/

/-- The filename a chunk belongs to, as recorded in its JSONB metadata. -/
def rowFilename (r : KnowledgeBaseRow) : Option String :=
  r.metadata.lookup "filename"

/-- Combined persistent state of the application: the three tables. -/
structure DbState where
  kb : List KnowledgeBaseRow
  topics : List TopicRow
  profiles : List StyleProfileRow
deriving Repr

/-- Modelled from the spec: the backend handler behind
`DELETE /files/:filename` (called by `handleDeleteFile` in the frontend)
removes every chunk of the file and cascades to dependent `topics` and
`style_profiles` rows tied to that source file, leaving all other rows
untouched. -/
def deleteFileCascade (s : DbState) (f : String) : DbState where
  kb := s.kb.filter (fun r => !(rowFilename r == some f))
  topics := s.topics.filter (fun r => !(r.source_filename == f))
  profiles := s.profiles.filter (fun r => !(r.source_filename == f))

/-! ## Streaming frontend client (the page embedded in src/backend/README.md) -/

/-- JavaScript `a || d` on strings: the empty string is falsy. -/
def jsOrStr (a d : String) : String :=
  if a = "" then d else a

/-- JavaScript `a || d` on an optional string: `undefined` and the empty
string are falsy. -/
def jsOrOptStr (a : Option String) (d : String) : String :=
  match a with
  | some s => jsOrStr s d
  | none => d

/-- JavaScript `a || d` on an optional number: `undefined` and 0 are falsy. -/
def jsOrOptNat (a : Option Nat) (d : Nat) : Nat :=
  match a with
  | some n => if n = 0 then d else n
  | none => d

/-- The `options` record of a question: the fixed keys A to D. -/
structure QOptions where
  A : String
  B : String
  C : String
  D : String
deriving DecidableEq, Repr

/-- The payload of a `question` event (`QuestionResponseData` with the
optional multi-agent metadata). -/
structure SSEQuestionData where
  question : String
  options : QOptions
  answer : String
  explanation : String
  difficulty : String
  topic : Option String
  cognitive_level : Option String
  quality_score : Option Nat
  distractor_reasoning : Option (List (String × String))
  source_references : Option (List String)
deriving DecidableEq, Repr

/-- A parsed SSE event (`ProgressEvent` in the client). -/
structure SSEEvent where
  type : String
  stage : Option String
  message : Option String
  data : Option SSEQuestionData
deriving DecidableEq, Repr

/-- One entry of the progress log (`LogEntry` in the client). -/
structure LogEntry where
  message : String
  timestamp : String
  stage : String
deriving DecidableEq, Repr

/-- A question as stored in the page state (`Question` in the client). -/
structure ClientQuestion where
  id : Nat
  context : String
  question : String
  options : QOptions
  answer : String
  explanation : String
  difficulty : String
  topic : String
  cognitive_level : String
  quality_score : Nat
  distractor_reasoning : List (String × String)
  source_references : List String
deriving DecidableEq, Repr

/-- The page-level React state touched by the streaming read loop. -/
structure ClientState where
  questions : List ClientQuestion
  progressLogs : List LogEntry
  currentStage : String
  isProcessing : Bool
  error : Option String
deriving DecidableEq, Repr

/-- The handler body for one parsed event inside the `try` block of
`triggerInference`: `progress` appends a log entry and may set the stage,
`question` (with data) appends a mapped question, `done` marks completion,
and `error` throws a JavaScript `Error` (returned here as `Except.error`).
`now` stands for `new Date().toLocaleTimeString()`. -/
def handleSSEEvent (now : String) (selectedTopics : List String) (s : ClientState)
    (e : SSEEvent) : Except String ClientState :=
  if e.type = "progress" then
    let newLog : LogEntry :=
      { message := e.message.getD "", timestamp := now, stage := jsOrOptStr e.stage "info" }
    let s1 := { s with progressLogs := s.progressLogs ++ [newLog] }
    .ok (match e.stage with
      | some st => if st = "" then s1 else { s1 with currentStage := st }
      | none => s1)
  else if e.type = "question" then
    match e.data with
    | some q =>
        let newQuestion : ClientQuestion :=
          { id := s.questions.length + 1
            context := "SOURCE: Multi-Agent RAG"
            question := q.question
            options := q.options
            answer := q.answer
            explanation := q.explanation
            difficulty := q.difficulty
            topic := jsOrOptStr q.topic (String.intercalate "; " selectedTopics)
            cognitive_level := jsOrOptStr q.cognitive_level "application"
            quality_score := jsOrOptNat q.quality_score 7
            distractor_reasoning := q.distractor_reasoning.getD []
            source_references := q.source_references.getD [] }
        .ok { s with questions := s.questions ++ [newQuestion] }
    | none => .ok s
  else if e.type = "done" then
    .ok { s with currentStage := "complete", isProcessing := false }
  else if e.type = "error" then
    .error (jsOrOptStr e.message "Unknown error during streaming")
  else
    .ok s

/-- JavaScript `line.startsWith(p)`, over the character lists. -/
def jsStartsWith (s p : String) : Bool :=
  s.toList.take p.length == p.toList

/-- JavaScript `line.slice(n)`, over the character list. -/
def jsSlice (s : String) (n : Nat) : String :=
  String.mk (s.toList.drop n)

/-- One iteration of the SSE line loop of `triggerInference`: lines not
starting with the data marker are skipped; for data lines, the slice after
the marker is parsed and handled inside a `try` whose `catch` only logs to
the console, so both a JSON parse failure (`parse` returning `none`) and the
`Error` thrown for an `error` event leave the page state unchanged. -/
def processSSELine (parse : String → Option SSEEvent) (now : String)
    (selectedTopics : List String) (s : ClientState) (line : String) : ClientState :=
  if jsStartsWith line "data: " then
    match parse (jsSlice line 6) with
    | none => s
    | some e =>
        match handleSSEEvent now selectedTopics s e with
        | .ok s2 => s2
        | .error _ => s
  else s

/-- The SSE read loop over the decoded lines of the stream body. -/
def processSSELines (parse : String → Option SSEEvent) (now : String)
    (selectedTopics : List String) : ClientState → List String → ClientState
  | s, [] => s
  | s, l :: rest =>
      processSSELines parse now selectedTopics (processSSELine parse now selectedTopics s l) rest

/-! ## Request validation in triggerInference -/

/-- What the client does when the generate button is pressed: either report a
validation error and stop, or send the request body to the streaming
endpoint. -/
inductive GenAction where
  | validationError (msg : String)
  | sendRequest (topics : List String) (difficulty : String) (count : Int)
deriving DecidableEq, Repr

/-- The client-side validation at the top of `triggerInference`: an empty
topic selection or a quantity outside 1..50 sets the error state and
returns before any request is issued; otherwise the request body
`{topics, difficulty, count}` is posted to `/generate/stream`. -/
def triggerInference (selectedTopics : List String) (complexity : String)
    (quantity : Int) : GenAction :=
  if selectedTopics.length = 0 then
    .validationError "Please select at least one topic (or add a custom topic)"
  else if quantity < 1 ∨ quantity > 50 then
    .validationError "Quantity must be between 1 and 50"
  else
    .sendRequest selectedTopics complexity quantity

/-! ## convertToExamFormat (streaming frontend client) -/

/-- JavaScript `s.split(sep)` for a single-character separator, over the
character list; `[]` never arises: splitting the empty string yields one
empty field, as in JavaScript. -/
def jsSplitAux (c : Char) : List Char → List Char → List String
  | [], acc => [String.mk acc.reverse]
  | x :: xs, acc =>
      if x = c then String.mk acc.reverse :: jsSplitAux c xs []
      else jsSplitAux c xs (x :: acc)

/-- JavaScript `s.split(c)` with a one-character separator. -/
def jsSplit (s : String) (c : Char) : List String :=
  jsSplitAux c s.toList []

/-- JavaScript string `trim`: strip leading and trailing whitespace. -/
def jsTrim (s : String) : String :=
  String.mk (((s.toList.dropWhile Char.isWhitespace).reverse.dropWhile Char.isWhitespace).reverse)

/-- The `optionMap` of `convertToExamFormat` with the JavaScript lookup
`optionMap[key] || 0`: a hit gives the mapped id, a miss gives 0. -/
def optionMapLookup (k : String) : Nat :=
  (([("A", 1), ("B", 2), ("C", 3), ("D", 4)] : List (String × Nat)).lookup k).getD 0

/-- Reading one key of the fixed options record, as the indexing
`q.options[key]` does for the four record keys. -/
def optGet (o : QOptions) (k : String) : String :=
  if k = "A" then o.A
  else if k = "B" then o.B
  else if k = "C" then o.C
  else if k = "D" then o.D
  else ""

/-- One converted question in the exam-system format. -/
structure ExamQuestion where
  id : Nat
  question : String
  options : List (Nat × String)
  correct_answers : List Nat
  explanation : String
  domain : String
  tags : List String
deriving DecidableEq, Repr

/-- The body of the `map` inside `convertToExamFormat`: sort the option keys
ascending, map each to `{id, content}` via `optionMap`; split the answer
string on commas, trim each part, and keep the mapped id of every part that
hits `optionMap`; the domain and tags fall back to General for an empty
topic. -/
def convertOneExam (idx : Nat) (q : ClientQuestion) : ExamQuestion :=
  let sortedKeys := (["A", "B", "C", "D"] : List String).insertionSort
    (fun a b => a.data ≤ b.data)
  let optionsList := sortedKeys.map (fun key => (optionMapLookup key, optGet q.options key))
  let answers := (jsSplit q.answer ',').map jsTrim
  let correctAnswers := (answers.filter (fun a => optionMapLookup a != 0)).map optionMapLookup
  { id := idx + 1
    question := q.question
    options := optionsList
    correct_answers := correctAnswers
    explanation := q.explanation
    domain := jsOrStr q.topic "General"
    tags := [jsOrStr q.topic "General"] }

/-- `convertToExamFormat` maps the conversion over the question list, using
the position as the exported id. -/
def convertToExamFormat (qs : List ClientQuestion) : List ExamQuestion :=
  qs.enum.map (fun p => convertOneExam p.1 p.2)

/-- The spec-side description of a valid answer key: exactly A, B, C, D map
to ids 1, 2, 3, 4, and any other key is dropped. -/
def answerKeyId (a : String) : Option Nat :=
  if a = "A" then some 1
  else if a = "B" then some 2
  else if a = "C" then some 3
  else if a = "D" then some 4
  else none

/-! ## Helper lemmas -/

theorem runEvents_shape (slots : List SlotOutcome) :
    ∃ pre last, runEvents slots = pre ++ [last] ∧
      (∀ e ∈ pre, isTerminalEvent e = false) ∧ isTerminalEvent last = true := by
  induction slots with
  | nil => exact ⟨[], .done, rfl, by simp, rfl⟩
  | cons head rest ih =>
    obtain ⟨pre, last, h1, h2, h3⟩ := ih
    cases head with
    | emitted p =>
      refine ⟨List.replicate p .progress ++ .question :: pre, last, ?_, ?_, h3⟩
      · simp [runEvents, h1]
      · intro e he
        rcases List.mem_append.mp he with h | h
        · simp [List.eq_of_mem_replicate h, isTerminalEvent]
        · rcases List.mem_cons.mp h with h | h
          · simp [h, isTerminalEvent]
          · exact h2 e h
    | abandoned p =>
      refine ⟨List.replicate p .progress ++ pre, last, ?_, ?_, h3⟩
      · simp [runEvents, h1]
      · intro e he
        rcases List.mem_append.mp he with h | h
        · simp [List.eq_of_mem_replicate h, isTerminalEvent]
        · exact h2 e h
    | fatal p =>
      refine ⟨List.replicate p .progress, .error, by simp [runEvents], ?_, rfl⟩
      intro e he
      simp [List.eq_of_mem_replicate he, isTerminalEvent]

theorem runSlot_all_fail (critique : Nat → Bool) (h : ∀ i, critique i = false) :
    ∀ budget attempt, runSlot critique budget attempt = (budget, false) := by
  intro budget
  induction budget with
  | zero => intro attempt; rfl
  | succ b ih =>
    intro attempt
    simp [runSlot, h attempt, ih (attempt + 1)]

theorem runRequest_le_length (bound : Nat) (slots : List (Nat → Bool)) :
    runRequest bound slots ≤ slots.length := by
  induction slots with
  | nil => simp [runRequest]
  | cons c rest ih =>
    cases h : (runSlot c bound 0).2 <;> simp [runRequest, h] <;> omega

/-! ## Claim theorems -/

/-- C1: for every generation run, the event stream consists of zero or more
`progress` or `question` events followed by exactly one terminal event that
is `done` or `error` (never both, never neither), delivered in the order the
Coordinator produced them, with no further events after the terminal one. -/
theorem event_stream_terminality (slots : List SlotOutcome) :
    ∃ pre last, runEvents slots = pre ++ [last] ∧
      (∀ e ∈ pre, e = EventKind.progress ∨ e = EventKind.question) ∧
      (last = EventKind.done ∨ last = EventKind.error) ∧
      (runEvents slots).countP (fun e => isTerminalEvent e) = 1 := by
  obtain ⟨pre, last, h1, h2, h3⟩ := runEvents_shape slots
  refine ⟨pre, last, h1, ?_, ?_, ?_⟩
  · intro e he
    have := h2 e he
    cases e <;> simp_all [isTerminalEvent]
  · cases last <;> simp_all [isTerminalEvent]
  · rw [h1, List.countP_append]
    have hp : pre.countP (fun e => isTerminalEvent e) = 0 := by
      rw [List.countP_eq_zero]
      intro a ha
      simp [h2 a ha]
    simp [hp, h3]

/-- C3: for any sequence of critique outcomes that never reaches the
acceptance threshold, the Coordinator issues at most `bound` draft attempts
for the slot before abandoning it, and the request continues with the next
slot rather than failing, so it can finish with fewer questions than
requested. -/
theorem coordinator_revision_bound (bound : Nat) (critique : Nat → Bool)
    (h : ∀ i, critique i = false) (rest : List (Nat → Bool)) :
    (runSlot critique bound 0).1 ≤ bound ∧
    (runSlot critique bound 0).2 = false ∧
    runRequest bound (critique :: rest) = runRequest bound rest ∧
    runRequest bound (critique :: rest) ≤ rest.length := by
  have hs := runSlot_all_fail critique h bound 0
  have hle := runRequest_le_length bound rest
  refine ⟨by rw [hs], by rw [hs], ?_, ?_⟩
  · simp [runRequest, hs]
  · simp [runRequest, hs]
    omega

/-- Witness for C3: a critique that always fails with revision budget 2 and
one further slot. -/
theorem coordinator_revision_bound_witness :
    (runSlot (fun _ => false) 2 0).1 ≤ 2 ∧
    (runSlot (fun _ => false) 2 0).2 = false ∧
    runRequest 2 ((fun _ => false) :: [fun _ => true]) = runRequest 2 [fun _ => true] ∧
    runRequest 2 ((fun _ => false) :: [fun _ => true]) ≤ 1 :=
  coordinator_revision_bound 2 (fun _ => false) (fun _ => rfl) [fun _ => true]

/-- C2: the Hybrid Retriever gives each chunk the fused score
`1 / (rank_constant + rank)` summed over the lists containing it, sorts
descending by fused score with ties broken by more recent creation
timestamp, returns the top-k, and the resulting ranking is a pure function
of `(V, K, rank_constant)`: the same inputs always produce the same order. -/
theorem hybridRetrieve_rrf_determinism (rc : ℚ) (createdAt : Nat → Nat)
    (V K : List Nat) (k : Nat) :
    (∀ c, rrfScore rc V K c =
      (match V.findIdx? (fun x => x == c) with
        | some i => 1 / (rc + (i + 1 : Nat))
        | none => 0) +
      (match K.findIdx? (fun x => x == c) with
        | some i => 1 / (rc + (i + 1 : Nat))
        | none => 0)) ∧
    hybridRetrieve rc createdAt V K k =
      (((V ++ K).dedup).insertionSort (rrfOrder rc createdAt V K)).take k ∧
    List.Sorted (rrfOrder rc createdAt V K) (hybridRetrieve rc createdAt V K k) ∧
    (∀ c ∈ hybridRetrieve rc createdAt V K k, c ∈ V ∨ c ∈ K) ∧
    (hybridRetrieve rc createdAt V K k).length = min k ((V ++ K).dedup).length ∧
    (∀ rc2 createdAt2 V2 K2 k2, rc2 = rc → createdAt2 = createdAt → V2 = V → K2 = K →
      k2 = k → hybridRetrieve rc2 createdAt2 V2 K2 k2 = hybridRetrieve rc createdAt V K k) := by
  refine ⟨fun c => rfl, rfl, ?_, ?_, ?_, ?_⟩
  · exact List.Pairwise.sublist (List.take_sublist k _)
      (List.sorted_insertionSort (rrfOrder rc createdAt V K) ((V ++ K).dedup))
  · intro c hc
    have h1 : c ∈ ((V ++ K).dedup).insertionSort (rrfOrder rc createdAt V K) :=
      List.mem_of_mem_take hc
    have h2 : c ∈ (V ++ K).dedup :=
      (List.perm_insertionSort (rrfOrder rc createdAt V K) ((V ++ K).dedup)).mem_iff.mp h1
    exact List.mem_append.mp (List.mem_dedup.mp h2)
  · unfold hybridRetrieve
    rw [List.length_take,
      (List.perm_insertionSort (rrfOrder rc createdAt V K) ((V ++ K).dedup)).length_eq]
  · intro rc2 createdAt2 V2 K2 k2 h1 h2 h3 h4 h5
    subst h1; subst h2; subst h3; subst h4; subst h5
    rfl

/-- Two style profile rows for the same source filename with distinct
primary keys, as a concurrent pair of extraction calls can produce when each
sees no existing row before inserting. -/
def profileRowA : StyleProfileRow :=
  { id := 1, source_filename := "exam.pdf", topic_keywords := ["tcp"],
    profile := "style v1", created_at := 10, updated_at := 10 }

/-- A second profile row for the same filename as `profileRowA`. -/
def profileRowB : StyleProfileRow :=
  { id := 2, source_filename := "exam.pdf", topic_keywords := ["ip"],
    profile := "style v2", created_at := 11, updated_at := 11 }

/-- C4: the `style_profiles` schema declares no unique constraint on
`source_filename` (only a plain btree index), so a table holding two
distinct rows for the same filename satisfies every declared constraint:
nothing in the schema prevents duplicate profile rows from concurrent
extraction calls, although the spec requires a unique `source_filename`. -/
theorem style_profiles_schema_admits_duplicates :
    validStyleProfiles [profileRowA, profileRowB] ∧
    profileRowA.source_filename = profileRowB.source_filename ∧
    ¬(∀ r1 ∈ [profileRowA, profileRowB], ∀ r2 ∈ [profileRowA, profileRowB],
        r1.source_filename = r2.source_filename → r1 = r2) := by
  refine ⟨?_, rfl, ?_⟩
  · unfold validStyleProfiles
    decide
  · intro h
    have hdup := h profileRowA (by simp) profileRowB (by simp) rfl
    exact absurd hdup (by decide)

/-- A knowledge base row whose `source_type` and `embedding` are both NULL:
the columns are nullable and the SQL CHECK constraint is satisfied by NULL. -/
def nullChunkRow : KnowledgeBaseRow :=
  { id := 7, content := "orphan chunk", embedding := none, metadata := [],
    source_type := none, created_at := 5 }

/-- C6 counterexample: the schema admits a stored chunk with no source kind
at all (and no embedding), because `source_type` and `embedding` are
nullable and a SQL CHECK passes on NULL, so the claim that every stored
chunk has a source kind drawn from the enumerated set and a 1536-dimension
embedding fails on the schema. -/
theorem knowledge_base_admits_null_source_kind :
    validKnowledgeBase [nullChunkRow] ∧
    nullChunkRow.source_type = none ∧
    nullChunkRow.embedding = none ∧
    ¬(∀ r ∈ [nullChunkRow],
        (∃ s, r.source_type = some s ∧ s ∈ sourceTypeValues) ∧
        (∃ v, r.embedding = some v ∧ v.length = 1536)) := by
  refine ⟨⟨?_, ?_⟩, rfl, rfl, ?_⟩
  · decide
  · decide
  · intro h
    obtain ⟨⟨s, hs, -⟩, -⟩ := h nullChunkRow (by simp)
    exact Option.noConfusion hs

/-- C6 (amended): in every table state satisfying the schema, any non-null
source kind lies in the enumerated set, any non-null embedding has dimension
1536, and the pipeline retrieval step leaves the stored chunks unchanged. -/
theorem knowledge_base_invariants_amended (t : List KnowledgeBaseRow)
    (h : validKnowledgeBase t) :
    (∀ r ∈ t, ∀ s, r.source_type = some s → s ∈ sourceTypeValues) ∧
    (∀ r ∈ t, ∀ v, r.embedding = some v → v.length = 1536) ∧
    (∀ rc V K k, (storeRetrieveStep t rc V K k).2 = t) := by
  refine ⟨?_, ?_, fun rc V K k => rfl⟩
  · intro r hr s hst
    have hc := (h.1 r hr).1
    rw [sourceTypeCheck, hst] at hc
    simpa using hc
  · intro r hr v hv
    have hc := (h.1 r hr).2
    rw [embeddingDimCheck, hv] at hc
    simpa using hc

/-- A valid sample chunk used to witness the amended C6 statement. -/
def sampleChunkRow : KnowledgeBaseRow :=
  { id := 1, content := "TCP uses a three-way handshake",
    embedding := some (List.replicate 1536 0),
    metadata := [("filename", "net.pdf")],
    source_type := some "textbook", created_at := 3 }

/-- Witness for the amended C6 statement on a concrete one-row table. -/
theorem knowledge_base_invariants_amended_witness :
    "textbook" ∈ sourceTypeValues ∧
    (List.replicate 1536 (0 : Int)).length = 1536 ∧
    (storeRetrieveStep [sampleChunkRow] 60 [1] [1] 5).2 = [sampleChunkRow] := by
  have hv : validKnowledgeBase [sampleChunkRow] := by
    refine ⟨?_, ?_⟩
    · intro r hr
      rw [List.mem_singleton] at hr
      subst hr
      refine ⟨rfl, ?_⟩
      have hd : embeddingDimCheck sampleChunkRow =
          ((List.replicate 1536 (0 : Int)).length == 1536) := rfl
      rw [hd, List.length_replicate]
      rfl
    · simp
  have h := knowledge_base_invariants_amended [sampleChunkRow] hv
  exact ⟨h.1 sampleChunkRow (by simp) "textbook" rfl,
    h.2.1 sampleChunkRow (by simp) (List.replicate 1536 0) rfl,
    h.2.2 60 [1] [1] 5⟩

theorem insertTopic_valid (t : List TopicRow) (r : TopicRow) (h : validTopics t) :
    validTopics (insertTopic t r) := by
  unfold insertTopic
  split
  · exact h
  · rename_i hguard
    simp only [Bool.or_eq_true, not_or, List.any_eq_true, not_exists, not_and,
      Bool.and_eq_true, beq_iff_eq] at hguard
    obtain ⟨hg1, hg2⟩ := hguard
    refine ⟨?_, ?_⟩
    · rw [List.pairwise_cons]
      refine ⟨?_, h.1⟩
      intro b hb he
      exact hg2 b hb (by simp [he])
    · rw [List.pairwise_cons]
      refine ⟨?_, h.2⟩
      intro b hb hc
      exact hg1 b hb (by simp [hc.1]) (by simp [hc.2])

/-- C7: in every table state satisfying the topics schema, two rows agreeing
on both name and source filename are the same row, and any topic-creating
operation writing through the unique index `topics_name_source_idx`
preserves this uniqueness. -/
theorem topics_name_source_unique (t : List TopicRow) (h : validTopics t)
    (r1 r2 : TopicRow) (h1 : r1 ∈ t) (h2 : r2 ∈ t)
    (hn : r1.name = r2.name) (hs : r1.source_filename = r2.source_filename) :
    r1 = r2 ∧ ∀ r, validTopics (insertTopic t r) := by
  refine ⟨?_, fun r => insertTopic_valid t r h⟩
  by_cases heq : r1 = r2
  · exact heq
  · exfalso
    have hsymm : Symmetric (fun a b : TopicRow =>
        ¬(a.name = b.name ∧ a.source_filename = b.source_filename)) :=
      fun a b hab hba => hab ⟨hba.1.symm, hba.2.symm⟩
    exact List.Pairwise.forall hsymm h.2 h1 h2 heq ⟨hn, hs⟩

/-- A topic row used in the C7 witness. -/
def sampleTopicRow : TopicRow :=
  { id := 1, name := "TCP handshake", source_filename := "net.pdf", created_at := 0 }

/-- A second topic row inserted in the C7 witness. -/
def newTopicRow : TopicRow :=
  { id := 2, name := "IP routing", source_filename := "net.pdf", created_at := 1 }

/-- Witness for C7 on a concrete one-row table and a concrete insertion. -/
theorem topics_name_source_unique_witness :
    sampleTopicRow = sampleTopicRow ∧
    validTopics (insertTopic [sampleTopicRow] newTopicRow) := by
  have hv : validTopics [sampleTopicRow] := by
    refine ⟨?_, ?_⟩ <;> simp
  have h := topics_name_source_unique [sampleTopicRow] hv
    sampleTopicRow sampleTopicRow (by simp) (by simp) rfl rfl
  exact ⟨h.1, h.2 newTopicRow⟩

/-- C5: a generation request is posted to the streaming endpoint exactly
when the selected topics are non-empty and the count lies in 1..50; any
input violating either bound makes the client report a validation error and
send no request, and the request that is sent carries the validated
inputs unchanged. -/
theorem triggerInference_validation (ts : List String) (cx : String) (q : Int) :
    ((∃ t d c, triggerInference ts cx q = GenAction.sendRequest t d c) ↔
      (ts ≠ [] ∧ 1 ≤ q ∧ q ≤ 50)) ∧
    (∀ t d c, triggerInference ts cx q = GenAction.sendRequest t d c →
      t = ts ∧ d = cx ∧ c = q) ∧
    ((ts = [] ∨ q < 1 ∨ 50 < q) →
      ∃ m, triggerInference ts cx q = GenAction.validationError m) := by
  unfold triggerInference
  by_cases h1 : ts.length = 0
  · rw [if_pos h1]
    refine ⟨?_, ?_, ?_⟩
    · constructor
      · rintro ⟨t, d, c, hcontra⟩
        simp at hcontra
      · intro hr
        exact absurd (List.length_eq_zero.mp h1) hr.1
    · intro t d c hcontra
      simp at hcontra
    · intro _
      exact ⟨_, rfl⟩
  · rw [if_neg h1]
    by_cases h2 : q < 1 ∨ q > 50
    · rw [if_pos h2]
      refine ⟨?_, ?_, ?_⟩
      · constructor
        · rintro ⟨t, d, c, hcontra⟩
          simp at hcontra
        · intro hr
          obtain ⟨-, ha, hb⟩ := hr
          rcases h2 with h | h <;> omega
      · intro t d c hcontra
        simp at hcontra
      · intro _
        exact ⟨_, rfl⟩
    · rw [if_neg h2]
      push_neg at h2
      refine ⟨?_, ?_, ?_⟩
      · constructor
        · intro _
          refine ⟨fun hts => h1 (by simp [hts]), ?_, ?_⟩ <;> omega
        · intro _
          exact ⟨ts, cx, q, rfl⟩
      · intro t d c he
        injection he with e1 e2 e3
        exact ⟨e1.symm, e2.symm, e3.symm⟩
      · intro hcase
        exfalso
        rcases hcase with hts | hq | hq
        · exact h1 (by simp [hts])
        · omega
        · omega

/-- Witness for C5: a valid request is sent unchanged; an empty topic
selection yields a validation error and no request. -/
theorem triggerInference_validation_witness :
    triggerInference ["TCP handshake"] "medium" 3 =
      GenAction.sendRequest ["TCP handshake"] "medium" 3 ∧
    (∃ m, triggerInference [] "medium" 3 = GenAction.validationError m) :=
  ⟨by decide, (triggerInference_validation [] "medium" 3).2.2 (Or.inl rfl)⟩

/-- C8: deleting a source file removes exactly the chunks of that file and
every dependent topic row and style profile row tied to that file, leaving
chunks, topics, and style profiles of all other files unchanged. -/
theorem deleteFileCascade_spec (s : DbState) (f : String) :
    (∀ r, r ∈ (deleteFileCascade s f).kb ↔ r ∈ s.kb ∧ rowFilename r ≠ some f) ∧
    (∀ r, r ∈ (deleteFileCascade s f).topics ↔ r ∈ s.topics ∧ r.source_filename ≠ f) ∧
    (∀ r, r ∈ (deleteFileCascade s f).profiles ↔
      r ∈ s.profiles ∧ r.source_filename ≠ f) := by
  refine ⟨?_, ?_, ?_⟩ <;> intro r <;>
    simp [deleteFileCascade, List.mem_filter]

/-- C9: inside the streaming read loop, the `Error` thrown by the handler
for an `error` event is caught by the per-event parse catch block, so the
page state (in particular the page-level error state) is unchanged by that
event and the loop goes on processing the remaining stream data; the same
catch makes a malformed (non-JSON) data line non-fatal to the loop. -/
theorem sse_error_event_nonfatal (parse : String → Option SSEEvent) (now : String)
    (topics : List String) (s : ClientState) (line : String) (rest : List String)
    (hline : jsStartsWith line "data: " = true) :
    (parse (jsSlice line 6) = none →
      processSSELine parse now topics s line = s) ∧
    (∀ e, parse (jsSlice line 6) = some e → e.type = "error" →
      processSSELine parse now topics s line = s ∧
      (processSSELine parse now topics s line).error = s.error ∧
      processSSELines parse now topics s (line :: rest) =
        processSSELines parse now topics s rest) := by
  constructor
  · intro hp
    rw [processSSELine, if_pos hline, hp]
  · intro e hp ht
    have hstep : processSSELine parse now topics s line = s := by
      rw [processSSELine, if_pos hline, hp]
      have he : handleSSEEvent now topics s e =
          Except.error (jsOrOptStr e.message "Unknown error during streaming") := by
        rw [handleSSEEvent, ht]
        rfl
      show (match handleSSEEvent now topics s e with
        | Except.ok s2 => s2
        | Except.error _ => s) = s
      rw [he]
    refine ⟨hstep, by rw [hstep], ?_⟩
    show processSSELines parse now topics (processSSELine parse now topics s line) rest =
      processSSELines parse now topics s rest
    rw [hstep]

/-- The parse function used by the C9 witness: the line payload ERR parses
to an `error` event, and anything else is malformed JSON. -/
def sampleParse : String → Option SSEEvent :=
  fun str =>
    if str = "ERR" then
      some { type := "error", stage := none, message := some "generation failed", data := none }
    else
      none

/-- The page state used by the C9 witness. -/
def sampleState : ClientState :=
  { questions := [], progressLogs := [], currentStage := "init",
    isProcessing := true, error := none }

/-- Witness for C9: a concrete `error` event line and a concrete malformed
line both leave the page state unchanged, and the loop continues past the
error event line. -/
theorem sse_error_event_nonfatal_witness :
    processSSELine sampleParse "12:00:00" ["TCP handshake"] sampleState "data: not json" =
      sampleState ∧
    processSSELine sampleParse "12:00:00" ["TCP handshake"] sampleState "data: ERR" =
      sampleState ∧
    processSSELines sampleParse "12:00:00" ["TCP handshake"] sampleState
        ["data: ERR", "data: not json"] =
      processSSELines sampleParse "12:00:00" ["TCP handshake"] sampleState
        ["data: not json"] := by
  have hmal := (sse_error_event_nonfatal sampleParse "12:00:00" ["TCP handshake"]
    sampleState "data: not json" [] (by decide)).1 (by decide)
  have herr := (sse_error_event_nonfatal sampleParse "12:00:00" ["TCP handshake"]
    sampleState "data: ERR" ["data: not json"] (by decide)).2
    { type := "error", stage := none, message := some "generation failed", data := none }
    (by decide) rfl
  exact ⟨hmal, herr.1, herr.2.2⟩

theorem optionMapLookup_eq_answerKeyId (a : String) :
    optionMapLookup a = (answerKeyId a).getD 0 := by
  unfold optionMapLookup answerKeyId
  by_cases h1 : a = "A"
  · subst h1; rfl
  by_cases h2 : a = "B"
  · subst h2; rfl
  by_cases h3 : a = "C"
  · subst h3; rfl
  by_cases h4 : a = "D"
  · subst h4; rfl
  have b1 : (a == "A") = false := beq_eq_false_iff_ne.mpr h1
  have b2 : (a == "B") = false := beq_eq_false_iff_ne.mpr h2
  have b3 : (a == "C") = false := beq_eq_false_iff_ne.mpr h3
  have b4 : (a == "D") = false := beq_eq_false_iff_ne.mpr h4
  simp [List.lookup, b1, b2, b3, b4, h1, h2, h3, h4]

theorem answerKeyId_ne_zero (a : String) (n : Nat) (h : answerKeyId a = some n) :
    n ≠ 0 := by
  unfold answerKeyId at h
  split_ifs at h <;> simp_all <;> omega

theorem filter_lookup_eq_filterMap (l : List String) :
    (l.filter (fun a => optionMapLookup a != 0)).map optionMapLookup =
      l.filterMap answerKeyId := by
  induction l with
  | nil => rfl
  | cons a t ih =>
    rw [List.filter_cons, List.filterMap_cons]
    cases hk : answerKeyId a with
    | none =>
      have hz : optionMapLookup a = 0 := by
        rw [optionMapLookup_eq_answerKeyId, hk]
        rfl
      simp [hz, ih]
    | some n =>
      have hz : optionMapLookup a = n := by
        rw [optionMapLookup_eq_answerKeyId, hk]
        rfl
      have hn := answerKeyId_ne_zero a n hk
      simp [hz, hn, ih]

theorem sortKeys_eval :
    (["A", "B", "C", "D"] : List String).insertionSort (fun a b => a.data ≤ b.data) =
      ["A", "B", "C", "D"] := by
  decide

/-- C10: for every question, `convertToExamFormat` emits its options sorted
ascending by key with ids mapped A to 1, B to 2, C to 3, D to 4, and emits
`correct_answers` holding exactly the ids of the comma-separated, trimmed
answer keys lying in A..D, in order of appearance; a key outside that set
contributes nothing, so an answer with no valid key yields an empty
`correct_answers` list. -/
theorem convertToExamFormat_spec (qs : List ClientQuestion) :
    convertToExamFormat qs = qs.enum.map (fun p => convertOneExam p.1 p.2) ∧
    (∀ idx q,
      (convertOneExam idx q).options =
        [(1, q.options.A), (2, q.options.B), (3, q.options.C), (4, q.options.D)] ∧
      (convertOneExam idx q).correct_answers =
        ((jsSplit q.answer ',').map jsTrim).filterMap answerKeyId ∧
      ((∀ a ∈ (jsSplit q.answer ',').map jsTrim, answerKeyId a = none) →
        (convertOneExam idx q).correct_answers = [])) := by
  refine ⟨rfl, ?_⟩
  intro idx q
  have hopts : (convertOneExam idx q).options =
      [(1, q.options.A), (2, q.options.B), (3, q.options.C), (4, q.options.D)] := by
    show ((["A", "B", "C", "D"] : List String).insertionSort
        (fun a b => a.data ≤ b.data)).map
        (fun key => (optionMapLookup key, optGet q.options key)) = _
    rw [sortKeys_eval]
    rfl
  have hca : (convertOneExam idx q).correct_answers =
      ((jsSplit q.answer ',').map jsTrim).filterMap answerKeyId := by
    show (((jsSplit q.answer ',').map jsTrim).filter
        (fun a => optionMapLookup a != 0)).map optionMapLookup = _
    exact filter_lookup_eq_filterMap _
  refine ⟨hopts, hca, ?_⟩
  intro hall
  rw [hca, List.filterMap_eq_nil_iff]
  exact hall

/-- A question with a multi-key answer string containing no valid key, used
by the C10 witness. -/
def sampleExportQ : ClientQuestion :=
  { id := 1, context := "SOURCE: Multi-Agent RAG",
    question := "Which layer routes packets?",
    options := { A := "Transport", B := "Network", C := "Session", D := "Physical" },
    answer := "X, Y", explanation := "Routing is layer 3",
    difficulty := "medium", topic := "Networking", cognitive_level := "recall",
    quality_score := 8, distractor_reasoning := [],
    source_references := ["chunk-1"] }

/-- Witness for C10 on a concrete question: the options come out sorted and
id-mapped, and an answer with no valid key gives empty correct answers. -/
theorem convertToExamFormat_spec_witness :
    (convertOneExam 0 sampleExportQ).options =
      [(1, "Transport"), (2, "Network"), (3, "Session"), (4, "Physical")] ∧
    (convertOneExam 0 sampleExportQ).correct_answers = [] := by
  have h := (convertToExamFormat_spec [sampleExportQ]).2 0 sampleExportQ
  exact ⟨h.1, h.2.2 (by decide)⟩

end GenCertQuiz
